import Mathlib

/-!
# Verification of the Learning-Outcome Coverage backend

A shallow embedding of the coverage-analysis backend of the
intelligent-assessment-moderation-system repository:

* the coverage engine `runCoverageAnalysis` (routes/coverage.js):
  question-set resolution, scope-keyed supersede (delete) step, the per-LO
  comparison loop with its per-pair try/catch, percentage and status
  derivation, and record construction;
* the query layer: the per-module report endpoint (sort by `analyzedAt`
  descending, deduplicate by LO id keeping the first hit) and the stats
  endpoint (plain tallies over the records matching the scope);
* the similarity-oracle wrapper `calculateSimilarity` (services/openaiService.js):
  parse-failure default and clamping into `[0,1]`;
* the MCQ option repair of the AI generation route (routes/ai.js):
  truncate to 4 options, pad with placeholder labels, pick the correct answer.

The external LLM call is modelled as an opaque oracle function.  JavaScript
truthiness of the nullable arguments (`analysisTag || null`,
`questionIds && questionIds.length > 0`, `questionIds || null`,
`mcq.correctAnswer || options[0] || ''`) is modelled explicitly: `none` is
`null`/`undefined`, an empty array is truthy, an empty string is falsy.
Similarity scores are rationals; `Math.round` on the non-negative values that
occur here is `⌊x + 1/2⌋`; timestamps are naturals.
-/

namespace LOC

abbrev ModuleId := String
abbrev QuestionId := String

/-- An embedded learning outcome of a module (models the subdocuments of
`Module.learningOutcomes`). -/
structure LearningOutcome where
  loId : String
  description : String
  bloomLevel : String
deriving DecidableEq

/-- A question document; `qid` models the Mongo `_id`. -/
structure Question where
  qid : QuestionId
  moduleId : ModuleId
  questionText : String
deriving DecidableEq

/-- An entry of a coverage record's `questionsCovered` array. -/
structure CoveredEntry where
  questionId : QuestionId
  similarityScore : ℚ
deriving DecidableEq

/-- A document of the Coverage collection (models/Coverage.js).  `analysisTag`
is `none` for the default (untagged) scope; `analyzedQuestions` is `none` when
no explicit subset was recorded; `analyzedAt` is the record's timestamp. -/
structure CoverageRecord where
  moduleId : ModuleId
  loId : String
  coveragePercentage : ℤ
  status : String
  questionsCovered : List CoveredEntry
  analysisTag : Option String
  questionCount : ℕ
  analyzedQuestions : Option (List QuestionId)
  analyzedAt : ℕ
deriving DecidableEq

/-- A module document: its id and its learning-outcome list. -/
structure ModuleRec where
  mid : ModuleId
  learningOutcomes : List LearningOutcome
deriving DecidableEq

/-- The similarity oracle as the engine sees it: one call of
`calculateSimilarity(lo.description, question.questionText)`, which either
returns a score or throws (modelled by `none`; the engine catches the throw
at the bottom of its per-question loop). -/
abbrev Oracle := String → String → Option ℚ

/-! ## JavaScript truthiness helpers -/

/-- Truthiness of a nullable string: `null`/`undefined` and `""` are falsy. -/
def jsTruthyStr : Option String → Bool
  | none => false
  | some s => decide (s ≠ "")

/-- `analysisTag || null` as stored on a record: a falsy tag becomes `null`. -/
def normTag (analysisTag : Option String) : Option String :=
  if jsTruthyStr analysisTag then analysisTag else none

/-- Truthiness of a nullable array: any array, even the empty one, is truthy. -/
def jsTruthyArr {α : Type} : Option (List α) → Bool
  | none => false
  | some _ => true

/-- `questionIds || null` as stored on a record. -/
def jsOrNullArr {α : Type} (x : Option (List α)) : Option (List α) :=
  if jsTruthyArr x then x else none

/-- `a || b` on a nullable string and a string default. -/
def jsOrStr (a : Option String) (b : String) : String :=
  match a with
  | none => b
  | some s => if s = "" then b else s

/-! ## The coverage engine (`runCoverageAnalysis`) -/

/-- Question-set resolution (lines 35-43 of the coverage routes): if
`questionIds` is given and non-empty, keep the questions that both match the
given ids and belong to the module; otherwise every question of the module. -/
def resolveQuestions (allQuestions : List Question) (moduleId : ModuleId) :
    Option (List QuestionId) → List Question
  | some questionIds =>
    if questionIds.length > 0 then
      allQuestions.filter (fun q => decide (q.moduleId = moduleId ∧ q.qid ∈ questionIds))
    else
      allQuestions.filter (fun q => decide (q.moduleId = moduleId))
  | none => allQuestions.filter (fun q => decide (q.moduleId = moduleId))

/-- The supersede step (lines 50-62): with a truthy tag, delete the records of
the module carrying exactly that tag; otherwise delete the module's untagged
records (`analysisTag` missing or `null`, both `none` here). -/
def deleteScope (store : List CoverageRecord) (moduleId : ModuleId)
    (analysisTag : Option String) : List CoverageRecord :=
  if jsTruthyStr analysisTag then
    store.filter (fun r => decide (¬(r.moduleId = moduleId ∧ r.analysisTag = analysisTag)))
  else
    store.filter (fun r => decide (¬(r.moduleId = moduleId ∧ r.analysisTag = none)))

/-- The mutable state of the per-LO comparison loop (lines 68-70):
`questionsCovered`, `totalSimilarity`, `questionCount`. -/
structure LOAccum where
  questionsCovered : List CoveredEntry
  totalSimilarity : ℚ
  questionCount : ℕ
deriving DecidableEq

/-- One iteration of the per-question loop (lines 73-94): call the oracle; a
throw (`none`) is caught and the pair skipped; a score strictly above `0.3`
pushes the pair and updates the running sum and count. -/
def stepPair (oracle : Oracle) (loDescription : String) (acc : LOAccum)
    (q : Question) : LOAccum :=
  match oracle loDescription q.questionText with
  | none => acc
  | some similarityScore =>
    if similarityScore > (0.3 : ℚ) then
      { questionsCovered := acc.questionsCovered ++ [⟨q.qid, similarityScore⟩]
        totalSimilarity := acc.totalSimilarity + similarityScore
        questionCount := acc.questionCount + 1 }
    else acc

/-- The whole inner loop for one learning outcome. -/
def analyzeLO (oracle : Oracle) (loDescription : String)
    (questions : List Question) : LOAccum :=
  questions.foldl (stepPair oracle loDescription) ⟨[], 0, 0⟩

/-- JavaScript `Math.round`: round half toward positive infinity,
i.e. `⌊x + 1/2⌋` (only non-negative values arise here). -/
def jsRound (x : ℚ) : ℤ := ⌊x + 1 / 2⌋

/-- Lines 96-98: `averageSimilarity` is the running sum over the running count
(or `0` when the count is `0`), and the percentage is
`Math.min(100, Math.round(averageSimilarity * 100))`. -/
def coveragePercentageOf (acc : LOAccum) : ℤ :=
  let averageSimilarity : ℚ :=
    if acc.questionCount > 0 then acc.totalSimilarity / acc.questionCount else 0
  min 100 (jsRound (averageSimilarity * 100))

/-- Status derivation (lines 101-108). -/
def statusOf (p : ℤ) : String :=
  if p ≥ 70 then "Covered"
  else if p ≥ 30 then "Partially Covered"
  else "Not Covered"

/-- Record construction for one LO (lines 110-122). -/
def buildRecord (oracle : Oracle) (moduleId : ModuleId)
    (questionIds : Option (List QuestionId)) (analysisTag : Option String)
    (questions : List Question) (now : ℕ) (lo : LearningOutcome) :
    CoverageRecord :=
  let acc := analyzeLO oracle lo.description questions
  let coveragePercentage := coveragePercentageOf acc
  { moduleId := moduleId
    loId := lo.loId
    coveragePercentage := coveragePercentage
    status := statusOf coveragePercentage
    questionsCovered := acc.questionsCovered
    analysisTag := normTag analysisTag
    questionCount := questions.length
    analyzedQuestions := jsOrNullArr questionIds
    analyzedAt := now }

/-- The full engine run: module lookup, early exits on an empty LO list or an
empty resolved question set (before the delete step), the supersede step, then
one fresh record per learning outcome. -/
def runCoverageAnalysis (oracle : Oracle) (modules : List ModuleRec)
    (allQuestions : List Question) (store : List CoverageRecord)
    (moduleId : ModuleId) (questionIds : Option (List QuestionId))
    (analysisTag : Option String) (now : ℕ) : List CoverageRecord :=
  match modules.find? (fun m => decide (m.mid = moduleId)) with
  | none => store
  | some m =>
    if m.learningOutcomes.length = 0 then store
    else
      let questions := resolveQuestions allQuestions moduleId questionIds
      if questions.length = 0 then store
      else
        deleteScope store moduleId analysisTag ++
          m.learningOutcomes.map
            (buildRecord oracle moduleId questionIds analysisTag questions now)

/-! ## The query layer -/

/-- The read-side scope query (shared by the report and stats endpoints):
records of the module carrying the given truthy tag, otherwise the module's
untagged records. -/
def scopeFilter (store : List CoverageRecord) (moduleId : ModuleId)
    (analysisTag : Option String) : List CoverageRecord :=
  if jsTruthyStr analysisTag then
    store.filter (fun r => decide (r.moduleId = moduleId ∧ r.analysisTag = analysisTag))
  else
    store.filter (fun r => decide (r.moduleId = moduleId ∧ r.analysisTag = none))

/-- The report endpoint's sort order: `analyzedAt` descending. -/
def byRecency (a b : CoverageRecord) : Prop := b.analyzedAt ≤ a.analyzedAt

instance : DecidableRel byRecency := fun _ _ => Nat.decLe _ _

instance : IsTotal CoverageRecord byRecency :=
  ⟨fun a b => Nat.le_total b.analyzedAt a.analyzedAt⟩

instance : IsTrans CoverageRecord byRecency :=
  ⟨fun _ _ _ hab hbc => le_trans hbc hab⟩

/-- `.sort({ analyzedAt: -1 })`: a stable sort by timestamp descending. -/
def sortByAnalyzedAtDesc (rs : List CoverageRecord) : List CoverageRecord :=
  rs.insertionSort byRecency

/-- The dedup loop of the report endpoint (lines 249-255): walk the sorted
list, keep a record only when its LO id has not been seen yet. -/
def dedupeLoop : List CoverageRecord → List String → List CoverageRecord
  | [], _ => []
  | r :: rs, seen =>
    if r.loId ∈ seen then dedupeLoop rs seen
    else r :: dedupeLoop rs (r.loId :: seen)

/-- Deduplicate by LO id, keeping the first occurrence. -/
def dedupeByLoId (rs : List CoverageRecord) : List CoverageRecord :=
  dedupeLoop rs []

/-- The record list underlying the `GET /module/:moduleId` response:
scope filter, sort by recency, dedup by LO id. -/
def getModuleCoverage (store : List CoverageRecord) (moduleId : ModuleId)
    (analysisTag : Option String) : List CoverageRecord :=
  dedupeByLoId (sortByAnalyzedAtDesc (scopeFilter store moduleId analysisTag))

/-- The stats object of `GET /stats/:moduleId`. -/
structure Stats where
  totalLOs : ℕ
  covered : ℕ
  partiallyCovered : ℕ
  notCovered : ℕ
  averageCoverage : ℤ
deriving DecidableEq

/-- The stats endpoint (lines 341-388): plain tallies over the records
matching the scope query, with no deduplication step. -/
def getStats (m : ModuleRec) (store : List CoverageRecord)
    (analysisTag : Option String) : Stats :=
  let coverageReports := scopeFilter store m.mid analysisTag
  { totalLOs := m.learningOutcomes.length
    covered := (coverageReports.filter (fun r => decide (r.status = "Covered"))).length
    partiallyCovered :=
      (coverageReports.filter (fun r => decide (r.status = "Partially Covered"))).length
    notCovered :=
      (coverageReports.filter (fun r => decide (r.status = "Not Covered"))).length
    averageCoverage :=
      if coverageReports.length > 0 then
        jsRound ((coverageReports.map (fun r => (r.coveragePercentage : ℚ))).sum /
          coverageReports.length)
      else 0 }

/-! ## The similarity-oracle wrapper (`calculateSimilarity`, lines 69-79) -/

/-- Post-processing of the oracle's textual answer: `none` models
`parseFloat` yielding `NaN` (default `0`); a parsed number is clamped by
`Math.max(0, Math.min(1, score))`. -/
def calculateSimilarity (parsedScore : Option ℚ) : ℚ :=
  match parsedScore with
  | none => 0
  | some score => max 0 (min 1 score)

/-! ## MCQ option repair (routes/ai.js, lines 62-77) -/

/-- The placeholder label pushed for the option at index `n`:
`` `Option ${String.fromCharCode(65 + options.length)}` ``. -/
def optionPlaceholder (n : ℕ) : String :=
  "Option " ++ String.mk [Char.ofNat (65 + n)]

/-- The `while (options.length < 4)` padding loop.  Each iteration grows the
list by one, and the loop is only ever entered on a list of at most 4 options
(the result of `.slice(0, 4)`), so 4 iterations always suffice; the fuel makes
the recursion structural. -/
def padLoop : ℕ → List String → List String
  | 0, options => options
  | fuel + 1, options =>
    if options.length < 4 then
      padLoop fuel (options ++ [optionPlaceholder options.length])
    else options

/-- `const options = (mcq.options || []).slice(0, 4)` followed by the padding
loop: the saved option list of one generated MCQ. -/
def fixMcqOptions (options : Option (List String)) : List String :=
  padLoop 4 ((options.getD []).take 4)

/-- `correctAnswer: mcq.correctAnswer || options[0] || ''`. -/
def chooseCorrectAnswer (correctAnswer : Option String)
    (options : List String) : String :=
  jsOrStr correctAnswer (jsOrStr options.head? "")

/-! ## Concrete instances used by the scenario claims and witnesses -/

/-- The spec's worked scenario module. -/
def exModule : ModuleRec :=
  ⟨"CS101", [⟨"LO1", "understand loops", "Understand"⟩,
             ⟨"LO2", "build a sorting algorithm", "Create"⟩]⟩

def exQ1 : Question := ⟨"q1", "CS101", "Q1"⟩
def exQ2 : Question := ⟨"q2", "CS101", "Q2"⟩
def exQ3 : Question := ⟨"q3", "CS101", "Q3"⟩

def exQuestions : List Question := [exQ1, exQ2, exQ3]

/-- The spec's worked scenario oracle: `0.8`, `0.1`, `0.5` against the first
LO, `0` against everything else. -/
def exOracle : Oracle := fun loDescription questionText =>
  if loDescription = "understand loops" then
    if questionText = "Q1" then some (0.8 : ℚ)
    else if questionText = "Q2" then some (0.1 : ℚ)
    else some (0.5 : ℚ)
  else some 0

/-- An oracle answering exactly the threshold value on every pair. -/
def thrOracle : Oracle := fun _ _ => some (0.3 : ℚ)

/-- An oracle that throws on the second question and scores `0.5` elsewhere. -/
def failOracle : Oracle := fun _ questionText =>
  if questionText = "Q2" then none else some (0.5 : ℚ)

/-- A constant mid-range oracle. -/
def frOracle : Oracle := fun _ _ => some (0.5 : ℚ)

def frQ : Question := ⟨"q9", "M9", "Q9"⟩

def frModule : ModuleRec := ⟨"M9", [⟨"LO9", "use recursion", "Apply"⟩]⟩

/-- An untagged record of module `M9`. -/
def frOld1 : CoverageRecord := ⟨"M9", "LO9", 10, "Not Covered", [], none, 1, none, 3⟩

/-- A record of module `M9` tagged `"t"`. -/
def frOld2 : CoverageRecord := ⟨"M9", "LO9", 20, "Not Covered", [], some "t", 1, none, 4⟩

/-- A record of another module, also tagged `"t"`. -/
def frOld3 : CoverageRecord := ⟨"M8", "LO1", 30, "Partially Covered", [], some "t", 1, none, 5⟩

def frStore : List CoverageRecord := [frOld1, frOld2, frOld3]

/-- A question belonging to a different module than the analysis target. -/
def c6Question : Question := ⟨"q7", "OTHER", "Q7"⟩

def dupModule : ModuleRec := ⟨"M1", [⟨"LO1", "explain pointers", "Understand"⟩]⟩

/-- Two store records for the same (LO, scope) with different timestamps. -/
def dupRecord1 : CoverageRecord := ⟨"M1", "LO1", 80, "Covered", [], none, 2, none, 1⟩

def dupRecord2 : CoverageRecord := ⟨"M1", "LO1", 90, "Covered", [], none, 2, none, 2⟩

/-- The invariant tying the three pieces of loop state together: the running
sum is the sum of the recorded scores, the running count their number, and
every recorded score clears the threshold. -/
def accInv (acc : LOAccum) : Prop :=
  acc.totalSimilarity = (acc.questionsCovered.map CoveredEntry.similarityScore).sum ∧
  acc.questionCount = acc.questionsCovered.length ∧
  ∀ e ∈ acc.questionsCovered, (0.3 : ℚ) < e.similarityScore

/-! ## Lemmas about the comparison loop -/

/-- A pair whose oracle call throws leaves the loop state untouched. -/
lemma stepPair_none {oracle : Oracle} {loDescription : String} {q : Question}
    (acc : LOAccum) (h : oracle loDescription q.questionText = none) :
    stepPair oracle loDescription acc q = acc := by
  unfold stepPair; rw [h]

/-- A pair scoring strictly above the threshold is pushed and counted. -/
lemma stepPair_gt {oracle : Oracle} {loDescription : String} {q : Question} {s : ℚ}
    (acc : LOAccum) (h : oracle loDescription q.questionText = some s)
    (hs : (0.3 : ℚ) < s) :
    stepPair oracle loDescription acc q =
      ⟨acc.questionsCovered ++ [⟨q.qid, s⟩], acc.totalSimilarity + s,
        acc.questionCount + 1⟩ := by
  unfold stepPair; rw [h]; exact if_pos hs

/-- A pair scoring at or below the threshold leaves the loop state untouched. -/
lemma stepPair_le {oracle : Oracle} {loDescription : String} {q : Question} {s : ℚ}
    (acc : LOAccum) (h : oracle loDescription q.questionText = some s)
    (hs : ¬ (0.3 : ℚ) < s) :
    stepPair oracle loDescription acc q = acc := by
  unfold stepPair; rw [h]; exact if_neg hs

lemma stepPair_accInv {oracle : Oracle} {loDescription : String} {q : Question}
    {acc : LOAccum} (h : accInv acc) :
    accInv (stepPair oracle loDescription acc q) := by
  obtain ⟨h1, h2, h3⟩ := h
  cases ho : oracle loDescription q.questionText with
  | none => rw [stepPair_none acc ho]; exact ⟨h1, h2, h3⟩
  | some s =>
    by_cases hs : (0.3 : ℚ) < s
    · rw [stepPair_gt acc ho hs]
      refine ⟨?_, ?_, ?_⟩
      · simp [h1]
      · simp [h2]
      · intro e he
        rcases List.mem_append.mp he with he | he
        · exact h3 e he
        · simp only [List.mem_singleton] at he
          subst he; exact hs
    · rw [stepPair_le acc ho hs]; exact ⟨h1, h2, h3⟩

lemma foldl_accInv (oracle : Oracle) (loDescription : String)
    (questions : List Question) :
    ∀ acc : LOAccum, accInv acc →
      accInv (questions.foldl (stepPair oracle loDescription) acc) := by
  induction questions with
  | nil => exact fun acc h => h
  | cons q qs ih => exact fun acc h => ih _ (stepPair_accInv h)

lemma analyzeLO_accInv (oracle : Oracle) (loDescription : String)
    (questions : List Question) :
    accInv (analyzeLO oracle loDescription questions) :=
  foldl_accInv oracle loDescription questions _ ⟨by simp, by simp, by simp⟩

lemma totalSimilarity_nonneg {acc : LOAccum} (h : accInv acc) :
    0 ≤ acc.totalSimilarity := by
  obtain ⟨h1, -, h3⟩ := h
  rw [h1]
  apply List.sum_nonneg
  intro x hx
  obtain ⟨e, he, rfl⟩ := List.mem_map.mp hx
  have := h3 e he
  linarith

lemma coveragePercentageOf_le_100 (acc : LOAccum) :
    coveragePercentageOf acc ≤ 100 := min_le_left _ _

lemma coveragePercentageOf_nonneg {acc : LOAccum} (h : 0 ≤ acc.totalSimilarity) :
    0 ≤ coveragePercentageOf acc := by
  unfold coveragePercentageOf jsRound
  refine le_min (by norm_num) (Int.floor_nonneg.mpr ?_)
  have havg : (0 : ℚ) ≤
      (if acc.questionCount > 0 then acc.totalSimilarity / acc.questionCount else 0) := by
    by_cases hc : acc.questionCount > 0
    · rw [if_pos hc]; exact div_nonneg h (by positivity)
    · rw [if_neg hc]
  have : (0 : ℚ) ≤
      (if acc.questionCount > 0 then acc.totalSimilarity / acc.questionCount else 0) * 100 :=
    mul_nonneg havg (by norm_num)
  linarith

lemma coveragePercentageOf_count_zero {acc : LOAccum} (h : acc.questionCount = 0) :
    coveragePercentageOf acc = 0 := by
  unfold coveragePercentageOf jsRound
  rw [h]
  norm_num

/-- Pairs on which the oracle throws contribute nothing: the loop computes the
same state as the loop over only the successfully scored questions. -/
lemma foldl_stepPair_filter (oracle : Oracle) (loDescription : String)
    (questions : List Question) :
    ∀ acc : LOAccum,
      questions.foldl (stepPair oracle loDescription) acc =
        (questions.filter
          (fun q => (oracle loDescription q.questionText).isSome)).foldl
          (stepPair oracle loDescription) acc := by
  induction questions with
  | nil => exact fun _ => rfl
  | cons q qs ih =>
    intro acc
    cases ho : oracle loDescription q.questionText with
    | none =>
      simp only [List.filter_cons, ho, Option.isSome_none, Bool.false_eq_true,
        if_false, List.foldl_cons]
      rw [stepPair_none acc ho]
      exact ih acc
    | some s =>
      simp only [List.filter_cons, ho, Option.isSome_some, if_true, List.foldl_cons]
      exact ih _

/-! ## Lemmas about the engine run -/

/-- The supersede step deletes exactly the module's records in the normalized
scope, whichever branch is taken. -/
lemma deleteScope_eq_filter (store : List CoverageRecord) (moduleId : ModuleId)
    (analysisTag : Option String) :
    deleteScope store moduleId analysisTag =
      store.filter
        (fun r => decide (¬(r.moduleId = moduleId ∧ r.analysisTag = normTag analysisTag))) := by
  unfold deleteScope normTag
  by_cases h : jsTruthyStr analysisTag
  · rw [if_pos h, if_pos h]
  · rw [if_neg h, if_neg h]

/-- When the run proceeds (module found, LOs and resolved question set
non-empty), its result is the superseded store followed by one fresh record
per learning outcome. -/
lemma runCoverageAnalysis_eq (oracle : Oracle) (modules : List ModuleRec)
    (allQuestions : List Question) (store : List CoverageRecord)
    (moduleId : ModuleId) (questionIds : Option (List QuestionId))
    (analysisTag : Option String) (now : ℕ) (m : ModuleRec)
    (hm : modules.find? (fun x => decide (x.mid = moduleId)) = some m)
    (hlo : m.learningOutcomes.length ≠ 0)
    (hq : (resolveQuestions allQuestions moduleId questionIds).length ≠ 0) :
    runCoverageAnalysis oracle modules allQuestions store moduleId questionIds
        analysisTag now =
      deleteScope store moduleId analysisTag ++
        m.learningOutcomes.map
          (buildRecord oracle moduleId questionIds analysisTag
            (resolveQuestions allQuestions moduleId questionIds) now) := by
  unfold runCoverageAnalysis
  rw [hm]
  simp only [if_neg hlo, if_neg hq]

/-- A run whose resolved question set is empty changes nothing. -/
lemma runCoverageAnalysis_noop (oracle : Oracle) (modules : List ModuleRec)
    (allQuestions : List Question) (store : List CoverageRecord)
    (moduleId : ModuleId) (questionIds : Option (List QuestionId))
    (analysisTag : Option String) (now : ℕ)
    (hq : resolveQuestions allQuestions moduleId questionIds = []) :
    runCoverageAnalysis oracle modules allQuestions store moduleId questionIds
        analysisTag now = store := by
  unfold runCoverageAnalysis
  cases hm : modules.find? (fun x => decide (x.mid = moduleId)) with
  | none => rfl
  | some m =>
    by_cases hlo : m.learningOutcomes.length = 0
    · simp only [if_pos hlo]
    · simp only [if_neg hlo, hq, List.length_nil]
      simp

/-! ## Lemmas about the report endpoint's dedup step -/

lemma dedupeLoop_subset :
    ∀ (rs : List CoverageRecord) (seen : List String) (x : CoverageRecord),
      x ∈ dedupeLoop rs seen → x ∈ rs := by
  intro rs
  induction rs with
  | nil => intro seen x h; simp [dedupeLoop] at h
  | cons r rs ih =>
    intro seen x h
    unfold dedupeLoop at h
    by_cases hr : r.loId ∈ seen
    · rw [if_pos hr] at h
      exact List.mem_cons_of_mem r (ih _ _ h)
    · rw [if_neg hr] at h
      rcases List.mem_cons.mp h with rfl | h'
      · exact List.mem_cons_self _ _
      · exact List.mem_cons_of_mem r (ih _ _ h')

lemma dedupeLoop_notMem_seen :
    ∀ (rs : List CoverageRecord) (seen : List String) (x : CoverageRecord),
      x ∈ dedupeLoop rs seen → x.loId ∉ seen := by
  intro rs
  induction rs with
  | nil => intro seen x h; simp [dedupeLoop] at h
  | cons r rs ih =>
    intro seen x h
    unfold dedupeLoop at h
    by_cases hr : r.loId ∈ seen
    · rw [if_pos hr] at h
      exact ih _ _ h
    · rw [if_neg hr] at h
      rcases List.mem_cons.mp h with rfl | h'
      · exact hr
      · intro hx
        exact ih _ _ h' (List.mem_cons_of_mem _ hx)

/-- The deduplicated list holds at most one record per LO id. -/
lemma dedupeLoop_pairwise :
    ∀ (rs : List CoverageRecord) (seen : List String),
      (dedupeLoop rs seen).Pairwise (fun a b => a.loId ≠ b.loId) := by
  intro rs
  induction rs with
  | nil => intro seen; simp [dedupeLoop]
  | cons r rs ih =>
    intro seen
    unfold dedupeLoop
    by_cases hr : r.loId ∈ seen
    · rw [if_pos hr]; exact ih seen
    · rw [if_neg hr]
      refine List.Pairwise.cons ?_ (ih _)
      intro b hb
      have := dedupeLoop_notMem_seen _ _ _ hb
      exact fun hEq => this (hEq ▸ List.mem_cons_self _ _)

/-- On a list sorted by recency, the kept record of each LO id carries the
greatest timestamp among the records of that LO id. -/
lemma dedupeLoop_latest :
    ∀ (rs : List CoverageRecord) (seen : List String),
      List.Sorted byRecency rs →
        ∀ x ∈ dedupeLoop rs seen, ∀ y ∈ rs, y.loId = x.loId →
          y.analyzedAt ≤ x.analyzedAt := by
  intro rs
  induction rs with
  | nil => intro seen _ x hx; simp [dedupeLoop] at hx
  | cons r rs ih =>
    intro seen hs x hx y hy hloId
    have hsort : ∀ b ∈ rs, byRecency r b := (List.sorted_cons.mp hs).1
    have hs' : List.Sorted byRecency rs := (List.sorted_cons.mp hs).2
    unfold dedupeLoop at hx
    by_cases hr : r.loId ∈ seen
    · rw [if_pos hr] at hx
      rcases List.mem_cons.mp hy with rfl | hy'
      · exact absurd (hloId ▸ hr) (dedupeLoop_notMem_seen _ _ _ hx)
      · exact ih seen hs' x hx y hy' hloId
    · rw [if_neg hr] at hx
      rcases List.mem_cons.mp hx with rfl | hx'
      · rcases List.mem_cons.mp hy with rfl | hy'
        · exact le_refl _
        · exact hsort y hy'
      · have hxnot : x.loId ∉ r.loId :: seen := dedupeLoop_notMem_seen _ _ _ hx'
        rcases List.mem_cons.mp hy with rfl | hy'
        · exact absurd (hloId ▸ List.mem_cons_self _ _) (hloId ▸ hxnot)
        · exact ih _ hs' x hx' y hy' hloId

lemma sortByAnalyzedAtDesc_sorted (rs : List CoverageRecord) :
    List.Sorted byRecency (sortByAnalyzedAtDesc rs) :=
  List.sorted_insertionSort byRecency rs

lemma sortByAnalyzedAtDesc_perm (rs : List CoverageRecord) :
    (sortByAnalyzedAtDesc rs).Perm rs :=
  List.perm_insertionSort byRecency rs

/-! ## Lemmas about the MCQ padding loop -/

lemma padLoop_length :
    ∀ (fuel : ℕ) (l : List String), 4 ≤ l.length + fuel → l.length ≤ 4 →
      (padLoop fuel l).length = 4 := by
  intro fuel
  induction fuel with
  | zero => intro l h1 h2; unfold padLoop; omega
  | succ n ih =>
    intro l h1 h2
    unfold padLoop
    by_cases hl : l.length < 4
    · rw [if_pos hl]
      apply ih <;> simp <;> omega
    · rw [if_neg hl]; omega

lemma padLoop_of_ge (fuel : ℕ) (l : List String) (h : 4 ≤ l.length) :
    padLoop fuel l = l := by
  cases fuel with
  | zero => rfl
  | succ n => unfold padLoop; rw [if_neg (by omega)]

/-! ## Evaluation of the spec's worked scenario -/

lemma exOracle_analyzeLO1 :
    analyzeLO exOracle "understand loops" exQuestions =
      ⟨[⟨"q1", 0.8⟩, ⟨"q3", 0.5⟩], 0.8 + 0.5, 2⟩ := by
  unfold analyzeLO exQuestions
  rw [List.foldl_cons,
    stepPair_gt _ (show exOracle "understand loops" exQ1.questionText = some 0.8 from rfl)
      (by norm_num)]
  rw [List.foldl_cons,
    stepPair_le _ (show exOracle "understand loops" exQ2.questionText = some 0.1 from rfl)
      (by norm_num)]
  rw [List.foldl_cons,
    stepPair_gt _ (show exOracle "understand loops" exQ3.questionText = some 0.5 from rfl)
      (by norm_num)]
  rw [List.foldl_nil]
  norm_num [exQ1, exQ3]

lemma exOracle_analyzeLO2 :
    analyzeLO exOracle "build a sorting algorithm" exQuestions = ⟨[], 0, 0⟩ := by
  unfold analyzeLO exQuestions
  rw [List.foldl_cons,
    stepPair_le _ (show exOracle "build a sorting algorithm" exQ1.questionText = some 0 from rfl)
      (by norm_num)]
  rw [List.foldl_cons,
    stepPair_le _ (show exOracle "build a sorting algorithm" exQ2.questionText = some 0 from rfl)
      (by norm_num)]
  rw [List.foldl_cons,
    stepPair_le _ (show exOracle "build a sorting algorithm" exQ3.questionText = some 0 from rfl)
      (by norm_num)]
  rw [List.foldl_nil]

/-! ## The claims -/

/-- Claim C1: for every analyzed learning outcome, the coverage percentage is
`round(mean(similarity scores of the covering questions) * 100)` clamped to at
most 100, and `0` when no question covers the LO; on the spec's worked
scenario the first LO gets 65 with 2 covering questions and the second LO 0
with none. -/
theorem coveragePercentage_is_clamped_rounded_mean (oracle : Oracle)
    (loDescription : String) (questions : List Question) :
    (coveragePercentageOf (analyzeLO oracle loDescription questions) =
      if (analyzeLO oracle loDescription questions).questionsCovered.length = 0 then 0
      else
        min 100 (jsRound
          (((analyzeLO oracle loDescription questions).questionsCovered.map
              CoveredEntry.similarityScore).sum /
            ((analyzeLO oracle loDescription questions).questionsCovered.length : ℚ) * 100))) ∧
    (analyzeLO exOracle "understand loops" exQuestions).questionsCovered.length = 2 ∧
    coveragePercentageOf (analyzeLO exOracle "understand loops" exQuestions) = 65 ∧
    (analyzeLO exOracle "build a sorting algorithm" exQuestions).questionsCovered.length = 0 ∧
    coveragePercentageOf (analyzeLO exOracle "build a sorting algorithm" exQuestions) = 0 := by
  refine ⟨?_, ?_, ?_, ?_, ?_⟩
  · obtain ⟨h1, h2, -⟩ := analyzeLO_accInv oracle loDescription questions
    unfold coveragePercentageOf
    rw [h1, h2]
    by_cases hlen : (analyzeLO oracle loDescription questions).questionsCovered.length = 0
    · rw [if_pos hlen, hlen]
      norm_num [jsRound]
    · rw [if_neg hlen, if_pos (Nat.pos_of_ne_zero hlen)]
  · rw [exOracle_analyzeLO1]
    rfl
  · rw [exOracle_analyzeLO1]
    norm_num [coveragePercentageOf, jsRound]
  · rw [exOracle_analyzeLO2]
    rfl
  · rw [exOracle_analyzeLO2]
    norm_num [coveragePercentageOf, jsRound]

/-- Claim C2: a compared (LO, question) pair whose similarity score is
strictly greater than 0.3 is pushed onto the covering set and counted into the
running sum and count, one scoring at or below 0.3 (in particular exactly 0.3)
changes nothing, and consequently every recorded covering score is strictly
greater than 0.3. -/
theorem covering_iff_score_above_threshold (oracle : Oracle)
    (loDescription : String) (acc : LOAccum) (q : Question) (s : ℚ)
    (questions : List Question)
    (h : oracle loDescription q.questionText = some s) :
    ((0.3 : ℚ) < s →
      stepPair oracle loDescription acc q =
        ⟨acc.questionsCovered ++ [⟨q.qid, s⟩], acc.totalSimilarity + s,
          acc.questionCount + 1⟩) ∧
    (¬ (0.3 : ℚ) < s → stepPair oracle loDescription acc q = acc) ∧
    ∀ e ∈ (analyzeLO oracle loDescription questions).questionsCovered,
      (0.3 : ℚ) < e.similarityScore :=
  ⟨fun hs => stepPair_gt acc h hs, fun hs => stepPair_le acc h hs,
    (analyzeLO_accInv oracle loDescription questions).2.2⟩

/-- Witness for C2 at the boundary: a pair scoring exactly 0.3 is not counted. -/
theorem covering_iff_score_above_threshold_witness :
    stepPair thrOracle "understand loops" ⟨[], 0, 0⟩ exQ1 = ⟨[], 0, 0⟩ :=
  (covering_iff_score_above_threshold thrOracle "understand loops" ⟨[], 0, 0⟩
    exQ1 0.3 [] rfl).2.1 (by norm_num)

/-- Claim C3: the status is derived from the percentage by the fixed inclusive
lower bounds 70 and 30, the percentage of an analyzed LO always lies in
`[0, 100]`, and an LO with an empty covering count gets percentage 0 and status
Not Covered. -/
theorem status_thresholds (p : ℤ) (oracle : Oracle) (loDescription : String)
    (questions : List Question) :
    (statusOf p = "Covered" ↔ 70 ≤ p) ∧
    (statusOf p = "Partially Covered" ↔ 30 ≤ p ∧ p < 70) ∧
    (statusOf p = "Not Covered" ↔ p < 30) ∧
    0 ≤ coveragePercentageOf (analyzeLO oracle loDescription questions) ∧
    coveragePercentageOf (analyzeLO oracle loDescription questions) ≤ 100 ∧
    ((analyzeLO oracle loDescription questions).questionCount = 0 →
      coveragePercentageOf (analyzeLO oracle loDescription questions) = 0 ∧
      statusOf (coveragePercentageOf (analyzeLO oracle loDescription questions)) =
        "Not Covered") := by
  refine ⟨?_, ?_, ?_,
    coveragePercentageOf_nonneg
      (totalSimilarity_nonneg (analyzeLO_accInv oracle loDescription questions)),
    coveragePercentageOf_le_100 _, ?_⟩
  · unfold statusOf
    split_ifs with h1 h2 <;> simp_all <;> omega
  · unfold statusOf
    split_ifs with h1 h2 <;> simp_all <;> omega
  · unfold statusOf
    split_ifs with h1 h2 <;> simp_all <;> omega
  · intro h
    have hz := coveragePercentageOf_count_zero h
    rw [hz]
    exact ⟨rfl, by norm_num [statusOf]⟩

/-- Witness for C3: the boundary percentages 30, 70, 69, and a zero-count LO. -/
theorem status_thresholds_witness :
    statusOf 30 = "Partially Covered" ∧ statusOf 70 = "Covered" ∧
    statusOf 69 = "Partially Covered" ∧
    coveragePercentageOf (analyzeLO exOracle "understand loops" []) = 0 :=
  ⟨(status_thresholds 30 exOracle "x" []).2.1.mpr (by norm_num),
   (status_thresholds 70 exOracle "x" []).1.mpr (by norm_num),
   (status_thresholds 69 exOracle "x" []).2.1.mpr (by norm_num),
   ((status_thresholds 0 exOracle "understand loops" []).2.2.2.2.2 rfl).1⟩

/-- Claim C7: a per-pair oracle failure is swallowed: the failing pair leaves
the loop state untouched, and the per-LO loop computes exactly the state of
the loop over the successfully scored questions, so all remaining pairs are
still processed and no per-pair failure aborts the run. -/
theorem oracle_failure_skipped (oracle : Oracle) (loDescription : String)
    (questions : List Question) :
    (∀ (acc : LOAccum) (q : Question),
      oracle loDescription q.questionText = none →
        stepPair oracle loDescription acc q = acc) ∧
    analyzeLO oracle loDescription questions =
      analyzeLO oracle loDescription
        (questions.filter (fun q => (oracle loDescription q.questionText).isSome)) := by
  refine ⟨fun acc q h => stepPair_none acc h, ?_⟩
  unfold analyzeLO
  exact foldl_stepPair_filter oracle loDescription questions _

/-- Witness for C7: an oracle failing on `Q2` skips that pair and the run over
`[Q1, Q2]` equals the run over `[Q1]` alone. -/
theorem oracle_failure_skipped_witness :
    stepPair failOracle "understand loops" ⟨[], 0, 0⟩ exQ2 = ⟨[], 0, 0⟩ ∧
    analyzeLO failOracle "understand loops" [exQ1, exQ2] =
      analyzeLO failOracle "understand loops" [exQ1] := by
  constructor
  · exact (oracle_failure_skipped failOracle "understand loops" []).1 _ exQ2 rfl
  · have h := (oracle_failure_skipped failOracle "understand loops" [exQ1, exQ2]).2
    have hf : [exQ1, exQ2].filter
        (fun q => (failOracle "understand loops" q.questionText).isSome) = [exQ1] := rfl
    rw [h, hf]

/-- Claim C8: a non-numeric oracle answer yields the default 0, a numeric
answer is clamped into `[0, 1]`, so every successful `calculateSimilarity`
call returns a score in `[0, 1]`. -/
theorem calculateSimilarity_clamped (parsedScore : Option ℚ) :
    calculateSimilarity none = 0 ∧
    (∀ s : ℚ, s < 0 → calculateSimilarity (some s) = 0) ∧
    (∀ s : ℚ, 1 < s → calculateSimilarity (some s) = 1) ∧
    0 ≤ calculateSimilarity parsedScore ∧ calculateSimilarity parsedScore ≤ 1 := by
  refine ⟨rfl, ?_, ?_, ?_, ?_⟩
  · intro s hs
    show max (0 : ℚ) (min 1 s) = 0
    rw [min_eq_right (by linarith : s ≤ (1 : ℚ))]
    exact max_eq_left (le_of_lt hs)
  · intro s hs
    show max (0 : ℚ) (min 1 s) = 1
    rw [min_eq_left (le_of_lt hs)]
    exact max_eq_right (by norm_num)
  · cases parsedScore with
    | none => norm_num [calculateSimilarity]
    | some s => exact le_max_left _ _
  · cases parsedScore with
    | none => norm_num [calculateSimilarity]
    | some s =>
      unfold calculateSimilarity
      exact max_le (by norm_num) (min_le_left _ _)

/-- Witness for C8: an out-of-range negative score clamps to 0 and an
out-of-range large score clamps to 1. -/
theorem calculateSimilarity_clamped_witness :
    calculateSimilarity (some (-(1 / 2) : ℚ)) = 0 ∧
    calculateSimilarity (some (3 / 2 : ℚ)) = 1 :=
  ⟨(calculateSimilarity_clamped none).2.1 _ (by norm_num),
   (calculateSimilarity_clamped none).2.2.1 _ (by norm_num)⟩

/-- Claim C9: every saved MCQ option list has exactly 4 entries for any
generator output — extras are truncated to the first 4 and a shortfall is
padded with placeholder labels ("Option C", "Option D" after 2 provided
options) — and the saved correct answer is the provided (truthy) value,
otherwise the first option. -/
theorem mcq_option_repair (options : List String)
    (providedOptions : Option (List String)) (s : String) :
    (fixMcqOptions providedOptions).length = 4 ∧
    (4 ≤ options.length → fixMcqOptions (some options) = options.take 4) ∧
    fixMcqOptions (some ["First option", "Second option"]) =
      ["First option", "Second option", "Option C", "Option D"] ∧
    (s ≠ "" → chooseCorrectAnswer (some s) (fixMcqOptions providedOptions) = s) ∧
    (∀ a b c d : String, a ≠ "" → chooseCorrectAnswer none [a, b, c, d] = a) := by
  refine ⟨?_, ?_, by decide, ?_, ?_⟩
  · unfold fixMcqOptions
    refine padLoop_length 4 _ (by omega) ?_
    exact List.length_take_le 4 _
  · intro h
    unfold fixMcqOptions
    simp only [Option.getD_some]
    exact padLoop_of_ge 4 _ (by simp [List.length_take]; omega)
  · intro hs
    simp [chooseCorrectAnswer, jsOrStr, hs]
  · intro a b c d ha
    simp [chooseCorrectAnswer, jsOrStr, ha]

/-- Witness for C9: truncation of a 5-option list, the provided correct
answer kept, and the first-option fallback. -/
theorem mcq_option_repair_witness :
    fixMcqOptions (some ["A", "B", "C", "D", "E"]) = ["A", "B", "C", "D", "E"].take 4 ∧
    chooseCorrectAnswer (some "B")
      (fixMcqOptions (some ["First option", "Second option"])) = "B" ∧
    chooseCorrectAnswer none ["A", "B", "Option C", "Option D"] = "A" :=
  ⟨(mcq_option_repair ["A", "B", "C", "D", "E"] (some ["A", "B", "C", "D", "E"]) "B").2.1
      (by norm_num),
   (mcq_option_repair [] (some ["First option", "Second option"]) "B").2.2.2.1 (by decide),
   (mcq_option_repair [] none "B").2.2.2.2 "A" "B" "Option C" "Option D" (by decide)⟩

/-- Claim C4: a run that proceeds removes exactly the module's prior records
in the run's scope — every record of the same module under another scope, and
every record of another module, survives unchanged — and then appends fresh
records all carrying that module and that scope. -/
theorem runAnalysis_scope_frame (oracle : Oracle) (modules : List ModuleRec)
    (allQuestions : List Question) (store : List CoverageRecord)
    (moduleId : ModuleId) (questionIds : Option (List QuestionId))
    (analysisTag : Option String) (now : ℕ) (m : ModuleRec)
    (hm : modules.find? (fun x => decide (x.mid = moduleId)) = some m)
    (hlo : m.learningOutcomes.length ≠ 0)
    (hq : (resolveQuestions allQuestions moduleId questionIds).length ≠ 0) :
    runCoverageAnalysis oracle modules allQuestions store moduleId questionIds
        analysisTag now =
      store.filter
          (fun r => decide (¬(r.moduleId = moduleId ∧ r.analysisTag = normTag analysisTag))) ++
        m.learningOutcomes.map
          (buildRecord oracle moduleId questionIds analysisTag
            (resolveQuestions allQuestions moduleId questionIds) now) ∧
    ∀ lo ∈ m.learningOutcomes,
      (buildRecord oracle moduleId questionIds analysisTag
          (resolveQuestions allQuestions moduleId questionIds) now lo).moduleId =
        moduleId ∧
      (buildRecord oracle moduleId questionIds analysisTag
          (resolveQuestions allQuestions moduleId questionIds) now lo).analysisTag =
        normTag analysisTag := by
  constructor
  · rw [runCoverageAnalysis_eq oracle modules allQuestions store moduleId questionIds
      analysisTag now m hm hlo hq, deleteScope_eq_filter]
  · exact fun lo _ => ⟨rfl, rfl⟩

/-- Witness for C4: a tagged run on module `M9` deletes only the `(M9, "t")`
record; the untagged `M9` record and the other module's record survive. -/
theorem runAnalysis_scope_frame_witness :
    runCoverageAnalysis frOracle [frModule] [frQ] frStore "M9" none (some "t") 6 =
      frStore.filter
          (fun r => decide (¬(r.moduleId = "M9" ∧ r.analysisTag = normTag (some "t")))) ++
        frModule.learningOutcomes.map
          (buildRecord frOracle "M9" none (some "t") (resolveQuestions [frQ] "M9" none) 6) :=
  (runAnalysis_scope_frame frOracle [frModule] [frQ] frStore "M9" none (some "t") 6
    frModule rfl (by decide) (by decide)).1

/-- Claim C6: with an explicit non-empty id list, the resolved question set
only holds questions that match the ids and belong to the module, and an
empty resolved set makes the whole run a silent no-op leaving the store
untouched. -/
theorem explicit_subset_guard (oracle : Oracle) (modules : List ModuleRec)
    (allQuestions : List Question) (store : List CoverageRecord)
    (moduleId : ModuleId) (analysisTag : Option String) (now : ℕ)
    (questionIds : List QuestionId) (hne : questionIds ≠ []) :
    (∀ q ∈ resolveQuestions allQuestions moduleId (some questionIds),
        q.moduleId = moduleId ∧ q.qid ∈ questionIds) ∧
    (resolveQuestions allQuestions moduleId (some questionIds) = [] →
      runCoverageAnalysis oracle modules allQuestions store moduleId
          (some questionIds) analysisTag now = store) := by
  constructor
  · intro q hq
    simp only [resolveQuestions, if_pos (List.length_pos.mpr hne)] at hq
    exact of_decide_eq_true (List.mem_filter.mp hq).2
  · intro h
    exact runCoverageAnalysis_noop _ _ _ _ _ _ _ _ h

/-- Witness for C6: an id list naming only a question of another module
resolves to the empty set and the run changes nothing. -/
theorem explicit_subset_guard_witness :
    resolveQuestions [c6Question] "M9" (some ["q7"]) = [] ∧
    runCoverageAnalysis frOracle [frModule] [c6Question] frStore "M9" (some ["q7"])
        none 6 = frStore := by
  refine ⟨by decide, ?_⟩
  exact (explicit_subset_guard frOracle [frModule] [c6Question] frStore "M9" none 6
    ["q7"] (by decide)).2 (by decide)

/-- Claim C5 counterexample: the store holds two records for the same
(LO id, scope) with different timestamps, yet the stats endpoint counts the
single LO twice in its `covered` tally — so not every query-layer response is
built from only the latest record per LO id. -/
theorem stats_no_dedup_counterexample :
    (getStats dupModule [dupRecord1, dupRecord2] none).covered = 2 ∧
    dupModule.learningOutcomes.length = 1 ∧
    dupRecord1.loId = dupRecord2.loId ∧
    dupRecord1.analyzedAt ≠ dupRecord2.analyzedAt := by
  refine ⟨?_, by decide, by decide, by decide⟩
  decide

/-- Claim C5 amended: the per-module report endpoint deduplicates by LO id —
each LO id appears at most once and the surviving record carries the greatest
timestamp among the scope's records of that LO id — but the stats endpoint
tallies the raw records of the scope with no deduplication, counting an LO
once per record. -/
theorem report_dedup_keeps_latest (store : List CoverageRecord)
    (moduleId : ModuleId) (analysisTag : Option String) :
    ((getModuleCoverage store moduleId analysisTag).Pairwise
      (fun a b => a.loId ≠ b.loId)) ∧
    (∀ x ∈ getModuleCoverage store moduleId analysisTag,
      x ∈ scopeFilter store moduleId analysisTag ∧
      ∀ y ∈ scopeFilter store moduleId analysisTag, y.loId = x.loId →
        y.analyzedAt ≤ x.analyzedAt) ∧
    (getStats dupModule [dupRecord1, dupRecord2] none).covered =
      [dupRecord1, dupRecord2].length := by
  refine ⟨dedupeLoop_pairwise _ _, ?_, by decide⟩
  intro x hx
  have hx' : x ∈ sortByAnalyzedAtDesc (scopeFilter store moduleId analysisTag) :=
    dedupeLoop_subset _ _ _ hx
  refine ⟨(sortByAnalyzedAtDesc_perm _).subset hx', ?_⟩
  intro y hy hloId
  have hy' : y ∈ sortByAnalyzedAtDesc (scopeFilter store moduleId analysisTag) :=
    (sortByAnalyzedAtDesc_perm _).symm.subset hy
  exact dedupeLoop_latest _ _ (sortByAnalyzedAtDesc_sorted _) x hx y hy' hloId

/-- Witness for C5's amended claim: on the duplicate store the report keeps
the record with timestamp 2, and the older duplicate is indeed no newer. -/
theorem report_dedup_keeps_latest_witness :
    dupRecord2 ∈ getModuleCoverage [dupRecord1, dupRecord2] "M1" none ∧
    dupRecord1.analyzedAt ≤ dupRecord2.analyzedAt := by
  have hmem : dupRecord2 ∈ getModuleCoverage [dupRecord1, dupRecord2] "M1" none := by
    decide
  exact ⟨hmem,
    ((report_dedup_keeps_latest [dupRecord1, dupRecord2] "M1" none).2.1 dupRecord2
      hmem).2 dupRecord1 (by decide) (by decide)⟩

/-- Claim C10 counterexample: a run with `questionIds = []` does produce
records (the resolved set is all of the module's questions), but they carry
`analyzedQuestions = some []` — the empty explicit-subset list, because an
empty array is truthy in `questionIds || null` — and not `null`. -/
theorem emptySubset_records_counterexample :
    (runCoverageAnalysis exOracle [exModule] exQuestions [] "CS101" (some []) none 7).map
        CoverageRecord.analyzedQuestions = [some [], some []] ∧
    some ([] : List QuestionId) ≠ (none : Option (List QuestionId)) := by
  constructor
  · decide
  · decide

/-- Claim C10 amended: with `questionIds = []` the resolved set is every
question of the module, exactly as when no subset is passed (so the
empty-resolved-set no-op does not trigger), and the persisted records carry
`analyzedQuestions = some []` — the empty explicit-subset list — rather than
`null`. -/
theorem emptySubset_resolves_all (oracle : Oracle) (modules : List ModuleRec)
    (allQuestions : List Question) (store : List CoverageRecord)
    (moduleId : ModuleId) (analysisTag : Option String) (now : ℕ) (m : ModuleRec)
    (hm : modules.find? (fun x => decide (x.mid = moduleId)) = some m)
    (hlo : m.learningOutcomes.length ≠ 0)
    (hq : (resolveQuestions allQuestions moduleId (some [])).length ≠ 0) :
    resolveQuestions allQuestions moduleId (some ([] : List QuestionId)) =
      resolveQuestions allQuestions moduleId none ∧
    runCoverageAnalysis oracle modules allQuestions store moduleId (some [])
        analysisTag now =
      deleteScope store moduleId analysisTag ++
        m.learningOutcomes.map
          (buildRecord oracle moduleId (some []) analysisTag
            (resolveQuestions allQuestions moduleId (some [])) now) ∧
    ∀ lo ∈ m.learningOutcomes,
      (buildRecord oracle moduleId (some []) analysisTag
          (resolveQuestions allQuestions moduleId (some [])) now lo).analyzedQuestions =
        some [] := by
  exact ⟨rfl,
    runCoverageAnalysis_eq oracle modules allQuestions store moduleId (some [])
      analysisTag now m hm hlo hq,
    fun lo _ => rfl⟩

/-- Witness for C10's amended claim on the worked scenario module. -/
theorem emptySubset_resolves_all_witness :
    resolveQuestions exQuestions "CS101" (some ([] : List QuestionId)) =
      resolveQuestions exQuestions "CS101" none ∧
    (buildRecord exOracle "CS101" (some []) none
        (resolveQuestions exQuestions "CS101" (some [])) 7
        ⟨"LO1", "understand loops", "Understand"⟩).analyzedQuestions = some [] := by
  have h := emptySubset_resolves_all exOracle [exModule] exQuestions [] "CS101" none 7
    exModule rfl (by decide) (by decide)
  exact ⟨h.1, h.2.2 ⟨"LO1", "understand loops", "Understand"⟩ (by decide)⟩

end LOC
